import Mathlib

set_option maxHeartbeats 1000000

/-! Verification development for the k8s-launch-kit repository: the
    profile-resolution engine (pkg/profiles), the LLM session string and
    JSON handling (pkg/llm), and the workflow orchestration control flow
    (pkg/app/launcher.go), shallowly embedded from the Go sources. -/

/-- Embeds `config.Profile` (pkg/config): the requirements descriptor built
once per run, with string fabric/deployment fields and plain boolean
feature flags, as read by `Profile.Validate` and the launcher. -/
structure ConfigProfile where
  Fabric : String
  Deployment : String
  Multirail : Bool
  SpectrumX : Bool
  Ai : Bool
  deriving DecidableEq

/-- Embeds `config.NodesCapabilities` (pkg/config): per-node hardware
capability flags, plain booleans as compared against by `Profile.Validate`. -/
structure NodesCapabilities where
  Sriov : Bool
  Rdma : Bool
  Ib : Bool
  deriving DecidableEq

/-- Embeds `config.ClusterCapabilities` (pkg/config). The Go `Nodes` field is
a pointer; the embedding uses a plain value (Validate always dereferences). -/
structure ClusterCapabilities where
  Nodes : NodesCapabilities
  deriving DecidableEq

/-- Embeds `profiles.ProfileRequirements` (pkg/profiles/profiles.go): Go
`*bool` predicate fields become `Option Bool`, nil becoming `none`; empty
string means an unset fabric/deployment predicate. -/
structure ProfileRequirements where
  Fabric : String
  Deployment : String
  Multirail : Option Bool
  SpectrumX : Option Bool
  Ai : Option Bool
  deriving DecidableEq

/-- Embeds `profiles.NodeCapabilities` (pkg/profiles/profiles.go): capability
predicates of a catalog profile, `*bool` becoming `Option Bool`. -/
structure NodeCapabilities where
  Sriov : Option Bool
  Rdma : Option Bool
  Ib : Option Bool
  deriving DecidableEq

/-- Embeds `profiles.Profile` (pkg/profiles/profiles.go). The `Plugin` field
is Modelled from the spec: the revision of pkg/profiles that launcher.go
compiles against carries the owning provider name on each profile
(`profile.Plugin` is read at generation and deployment time); that field is
absent from the older profiles.go snapshot under src. -/
structure Profile where
  Name : String
  Description : String
  ProfileRequirements : ProfileRequirements
  NodeCapabilities : NodeCapabilities
  DeploymentGuide : String
  Templates : List String
  Plugin : String
  deriving DecidableEq

/-- Embeds the constant `profiles.ProfilesDir`. -/
def ProfilesDir : String := "profiles"

/-- Embeds `(*Profile).Validate` (pkg/profiles/profiles.go lines 70-112): the
sequential guard chain returning false on the first declared predicate that
does not match, true when every declared predicate holds. A Go guard
`p.X != nil && *p.X != r.X` becomes `Option.any` on the embedded field. -/
def Profile.Validate (p : Profile) (requirements : ConfigProfile)
    (capabilities : ClusterCapabilities) : Bool :=
  if p.ProfileRequirements.Fabric != "" &&
      p.ProfileRequirements.Fabric != requirements.Fabric then false
  else if p.ProfileRequirements.Deployment != "" &&
      p.ProfileRequirements.Deployment != requirements.Deployment then false
  else if p.ProfileRequirements.Multirail.any
      (fun b => b != requirements.Multirail) then false
  else if p.ProfileRequirements.SpectrumX.any
      (fun b => b != requirements.SpectrumX) then false
  else if p.ProfileRequirements.Ai.any
      (fun b => b != requirements.Ai) then false
  else if p.NodeCapabilities.Sriov.any
      (fun b => b != capabilities.Nodes.Sriov) then false
  else if p.NodeCapabilities.Rdma.any
      (fun b => b != capabilities.Nodes.Rdma) then false
  else if p.NodeCapabilities.Ib.any
      (fun b => b != capabilities.Nodes.Ib) then false
  else true

/-- Embeds `(*Profile).UpdateManifestsPaths` (pkg/profiles/profiles.go):
rewrites template and guide references under the profile directory.
`filepath.Join` of clean relative components is modelled as
slash-concatenation. -/
def Profile.UpdateManifestsPaths (p : Profile) (dirPath : String) : Profile :=
  { p with
    Templates := p.Templates.map (fun t => dirPath ++ "/" ++ t),
    DeploymentGuide := dirPath ++ "/" ++ p.DeploymentGuide }

/-- One on-disk catalog entry: a subdirectory of the profiles dir (named
`name`) holding a parsed `profile.yaml`. Non-directory entries of the
profiles dir are skipped by the source loop and are not modelled. -/
structure CatalogEntry where
  name : String
  profile : Profile
  deriving DecidableEq

/-- Insertion step for the lexicographic ordering of catalog entries by
directory name, the order `os.ReadDir` guarantees. -/
def catInsert (e : CatalogEntry) : List CatalogEntry → List CatalogEntry
  | [] => [e]
  | x :: xs => if e.name ≤ x.name then e :: x :: xs else x :: catInsert e xs

/-- Sorts catalog entries by directory name, modelling the sorted-by-filename
guarantee of `os.ReadDir` used by `FindApplicableProfile`. -/
def sortCatalog : List CatalogEntry → List CatalogEntry
  | [] => []
  | x :: xs => catInsert x (sortCatalog xs)

/-- The enumeration loop of `FindApplicableProfile`: walk the (sorted)
entries, consider only entries owned by the requested provider, return the
first whose `Validate` holds (with its manifest paths rewritten), else the
no-applicable-profile error. The provider filter is Modelled from the spec:
the three-argument `FindApplicableProfile(requirements, capabilities,
pluginName)` that launcher.go calls is not the two-argument revision present
under src/pkg/profiles; the per-entry read/validate/first-return structure is
taken from that source loop (lines 46-66). -/
def findLoop (requirements : ConfigProfile) (capabilities : ClusterCapabilities)
    (pluginName : String) : List CatalogEntry → Except String Profile
  | [] => .error "no applicable profile found"
  | e :: rest =>
    if e.profile.Plugin == pluginName then
      if e.profile.Validate requirements capabilities then
        .ok (e.profile.UpdateManifestsPaths (ProfilesDir ++ "/" ++ e.name))
      else findLoop requirements capabilities pluginName rest
    else findLoop requirements capabilities pluginName rest

/-- Embeds `profiles.FindApplicableProfile` as called from launcher.go:
enumerate the catalog in `os.ReadDir` order (lexicographic by entry name),
keep only the requested provider's entries, and return the first match. -/
def FindApplicableProfile (catalog : List CatalogEntry)
    (requirements : ConfigProfile) (capabilities : ClusterCapabilities)
    (pluginName : String) : Except String Profile :=
  findLoop requirements capabilities pluginName (sortCatalog catalog)

/-- Restates the resolution algorithm the way the spec describes it: filter
the lexicographically ordered catalog to the provider's entries, take the
first entry whose declared predicates all hold, otherwise fail. Written from
the spec's words, to be compared with `FindApplicableProfile`. -/
def resolveFirstMatch (catalog : List CatalogEntry)
    (requirements : ConfigProfile) (capabilities : ClusterCapabilities)
    (pluginName : String) : Except String Profile :=
  match ((sortCatalog catalog).filter
      (fun e => e.profile.Plugin == pluginName)).find?
      (fun e => e.profile.Validate requirements capabilities) with
  | some e => .ok (e.profile.UpdateManifestsPaths (ProfilesDir ++ "/" ++ e.name))
  | none => .error "no applicable profile found"

theorem findLoop_eq_filterFind (requirements : ConfigProfile)
    (capabilities : ClusterCapabilities) (pluginName : String)
    (l : List CatalogEntry) :
    findLoop requirements capabilities pluginName l =
      match (l.filter (fun e => e.profile.Plugin == pluginName)).find?
          (fun e => e.profile.Validate requirements capabilities) with
      | some e => .ok (e.profile.UpdateManifestsPaths (ProfilesDir ++ "/" ++ e.name))
      | none => .error "no applicable profile found" := by
  induction l with
  | nil => rfl
  | cons e rest ih =>
    by_cases hp : e.profile.Plugin == pluginName
    · by_cases hv : e.profile.Validate requirements capabilities
      · simp [findLoop, hp, hv, List.filter_cons, List.find?]
      · simp only [findLoop, hp, if_true]
        rw [if_neg (by simp_all)]
        rw [ih]
        simp [List.filter_cons, hp, List.find?, hv]
    · simp only [findLoop]
      rw [if_neg (by simp_all)]
      rw [ih]
      simp [List.filter_cons, hp]

theorem mem_catInsert {a e : CatalogEntry} {l : List CatalogEntry} :
    a ∈ catInsert e l ↔ a = e ∨ a ∈ l := by
  induction l with
  | nil => simp [catInsert]
  | cons x xs ih =>
    by_cases hle : e.name ≤ x.name
    · rw [catInsert, if_pos hle]; simp [or_comm, or_assoc, or_left_comm]
    · rw [catInsert, if_neg hle]
      simp only [List.mem_cons, ih]
      tauto

theorem pairwise_catInsert {e : CatalogEntry} {l : List CatalogEntry}
    (h : l.Pairwise (fun a b => a.name ≤ b.name)) :
    (catInsert e l).Pairwise (fun a b => a.name ≤ b.name) := by
  induction l with
  | nil => simp [catInsert]
  | cons x xs ih =>
    by_cases hle : e.name ≤ x.name
    · rw [catInsert, if_pos hle]
      refine List.Pairwise.cons ?_ h
      intro y hy
      rcases List.mem_cons.mp hy with rfl | hy
      · exact hle
      · exact le_trans hle ((List.pairwise_cons.mp h).1 y hy)
    · rw [catInsert, if_neg hle]
      have hx := List.pairwise_cons.mp h
      refine List.Pairwise.cons ?_ (ih hx.2)
      intro y hy
      rcases mem_catInsert.mp hy with rfl | hmem
      · exact le_of_not_le hle
      · exact hx.1 y hmem

theorem pairwise_sortCatalog (l : List CatalogEntry) :
    (sortCatalog l).Pairwise (fun a b => a.name ≤ b.name) := by
  induction l with
  | nil => simp [sortCatalog]
  | cons x xs ih => exact pairwise_catInsert ih

theorem mem_sortCatalog {a : CatalogEntry} {l : List CatalogEntry} :
    a ∈ sortCatalog l ↔ a ∈ l := by
  induction l with
  | nil => simp [sortCatalog]
  | cons x xs ih =>
    rw [sortCatalog, mem_catInsert]
    simp [ih]

/-- C1: profile resolution enumerates only the catalog entries belonging to
the requested provider, in lexicographic order of entry name, evaluates each
entry's declared predicates, returns the first entry whose declared
predicates all hold (first-match), and returns the no-applicable-profile
error when no entry matches: `FindApplicableProfile` coincides with
filter-by-provider, order-by-name, take-first-validating, and the enumerated
provider entries are indeed in lexicographic name order. -/
theorem FindApplicableProfile_first_match (catalog : List CatalogEntry)
    (requirements : ConfigProfile) (capabilities : ClusterCapabilities)
    (pluginName : String) :
    FindApplicableProfile catalog requirements capabilities pluginName =
      resolveFirstMatch catalog requirements capabilities pluginName ∧
    ((sortCatalog catalog).filter
        (fun e => e.profile.Plugin == pluginName)).Pairwise
      (fun a b => a.name ≤ b.name) := by
  constructor
  · rw [FindApplicableProfile, resolveFirstMatch, findLoop_eq_filterFind]
  · exact List.Pairwise.filter _ (pairwise_sortCatalog catalog)

theorem guard_chain {c r : Bool} :
    (if c = true then false else r) = true ↔ c = false ∧ r = true := by
  cases c <;> simp

/-- Normal form of the Validate guard chain: true exactly when every guard
is false. -/
theorem Validate_chain (p : Profile) (r : ConfigProfile)
    (c : ClusterCapabilities) :
    p.Validate r c = true ↔
      ((p.ProfileRequirements.Fabric != "" &&
          p.ProfileRequirements.Fabric != r.Fabric) = false ∧
       (p.ProfileRequirements.Deployment != "" &&
          p.ProfileRequirements.Deployment != r.Deployment) = false ∧
       p.ProfileRequirements.Multirail.any (fun b => b != r.Multirail) = false ∧
       p.ProfileRequirements.SpectrumX.any (fun b => b != r.SpectrumX) = false ∧
       p.ProfileRequirements.Ai.any (fun b => b != r.Ai) = false ∧
       p.NodeCapabilities.Sriov.any (fun b => b != c.Nodes.Sriov) = false ∧
       p.NodeCapabilities.Rdma.any (fun b => b != c.Nodes.Rdma) = false ∧
       p.NodeCapabilities.Ib.any (fun b => b != c.Nodes.Ib) = false) := by
  unfold Profile.Validate
  simp only [guard_chain]
  simp

/-- C2: a profile whose predicates are all unset (empty fabric and deployment
strings, nil boolean requirement and capability predicates) matches every
requirements descriptor and every capabilities descriptor — `Validate`
returns true — and resolving against any catalog containing such a profile
under its provider always succeeds (wildcard law). -/
theorem wildcard_profile_always_matches
    (r : ConfigProfile) (c : ClusterCapabilities) (p : Profile)
    (h1 : p.ProfileRequirements.Fabric = "")
    (h2 : p.ProfileRequirements.Deployment = "")
    (h3 : p.ProfileRequirements.Multirail = none)
    (h4 : p.ProfileRequirements.SpectrumX = none)
    (h5 : p.ProfileRequirements.Ai = none)
    (h6 : p.NodeCapabilities.Sriov = none)
    (h7 : p.NodeCapabilities.Rdma = none)
    (h8 : p.NodeCapabilities.Ib = none) :
    p.Validate r c = true ∧
    ∀ (catalog : List CatalogEntry) (e : CatalogEntry) (pluginName : String),
      e ∈ catalog → e.profile = p → e.profile.Plugin = pluginName →
      ∃ q, FindApplicableProfile catalog r c pluginName = Except.ok q := by
  have hval : p.Validate r c = true := by
    rw [Validate_chain]
    simp [h1, h2, h3, h4, h5, h6, h7, h8]
  refine ⟨hval, ?_⟩
  intro catalog e pluginName hmem hep hpl
  have hmem2 : e ∈ (sortCatalog catalog).filter
      (fun e => e.profile.Plugin == pluginName) := by
    rw [List.mem_filter]
    exact ⟨mem_sortCatalog.mpr hmem, by simp [hpl]⟩
  have hfind : (((sortCatalog catalog).filter
      (fun e => e.profile.Plugin == pluginName)).find?
      (fun e => e.profile.Validate r c)).isSome := by
    apply List.find?_isSome.mpr
    exact ⟨e, hmem2, by rw [hep]; exact hval⟩
  obtain ⟨x, hx⟩ := Option.isSome_iff_exists.mp hfind
  refine ⟨x.profile.UpdateManifestsPaths (ProfilesDir ++ "/" ++ x.name), ?_⟩
  rw [FindApplicableProfile, findLoop_eq_filterFind, hx]

/-- Sample concrete requirements descriptor for witnesses. -/
def sampleReq : ConfigProfile := ⟨"ethernet", "sriov", true, false, true⟩

/-- Sample concrete capabilities descriptor for witnesses. -/
def sampleCaps : ClusterCapabilities := ⟨⟨true, true, false⟩⟩

/-- A catalog profile with every predicate unset. -/
def wildcardProfile : Profile :=
  ⟨"wildcard", "catch-all", ⟨"", "", none, none, none⟩, ⟨none, none, none⟩,
   "guide.md", ["a.yaml"], "network-operator"⟩

/-- A catalog profile with every predicate declared. -/
def declaredProfile : Profile :=
  ⟨"sriov-eth", "fully declared",
   ⟨"ethernet", "sriov", some true, some false, some true⟩,
   ⟨some true, some true, some false⟩, "guide.md", ["a.yaml"],
   "network-operator"⟩

theorem wildcard_profile_always_matches_witness :
    wildcardProfile.Validate sampleReq sampleCaps = true ∧
    ∃ q, FindApplicableProfile [⟨"00-wildcard", wildcardProfile⟩]
      sampleReq sampleCaps "network-operator" = Except.ok q := by
  have h := wildcard_profile_always_matches sampleReq sampleCaps
    wildcardProfile rfl rfl rfl rfl rfl rfl rfl rfl
  exact ⟨h.1, h.2 [⟨"00-wildcard", wildcardProfile⟩]
    ⟨"00-wildcard", wildcardProfile⟩ "network-operator" (by simp) rfl rfl⟩

/-- C3: for every declared (non-wildcard) predicate field of a profile,
matching requires equality with the declared value: starting from a matching
requirements/capabilities pair and changing any single field the profile
declares to a non-matching value, holding all other fields constant, flips
`Validate` from true to false. -/
theorem validate_declared_field_flip (p : Profile) (r : ConfigProfile)
    (c : ClusterCapabilities) (h : p.Validate r c = true) :
    (p.ProfileRequirements.Fabric ≠ "" →
      ∀ v, v ≠ p.ProfileRequirements.Fabric →
        p.Validate { r with Fabric := v } c = false) ∧
    (p.ProfileRequirements.Deployment ≠ "" →
      ∀ v, v ≠ p.ProfileRequirements.Deployment →
        p.Validate { r with Deployment := v } c = false) ∧
    (∀ b, p.ProfileRequirements.Multirail = some b →
      p.Validate { r with Multirail := !b } c = false) ∧
    (∀ b, p.ProfileRequirements.SpectrumX = some b →
      p.Validate { r with SpectrumX := !b } c = false) ∧
    (∀ b, p.ProfileRequirements.Ai = some b →
      p.Validate { r with Ai := !b } c = false) ∧
    (∀ b, p.NodeCapabilities.Sriov = some b →
      p.Validate r { c with Nodes := { c.Nodes with Sriov := !b } } = false) ∧
    (∀ b, p.NodeCapabilities.Rdma = some b →
      p.Validate r { c with Nodes := { c.Nodes with Rdma := !b } } = false) ∧
    (∀ b, p.NodeCapabilities.Ib = some b →
      p.Validate r { c with Nodes := { c.Nodes with Ib := !b } } = false) := by
  refine ⟨?_, ?_, ?_, ?_, ?_, ?_, ?_, ?_⟩
  · intro hf v hv
    cases hval : p.Validate { r with Fabric := v } c with
    | false => rfl
    | true =>
      exfalso
      have hc := (Validate_chain p { r with Fabric := v } c).mp hval
      have hg : (p.ProfileRequirements.Fabric != "" &&
          p.ProfileRequirements.Fabric != v) = true := by
        rw [Bool.and_eq_true]
        exact ⟨bne_iff_ne.mpr hf, bne_iff_ne.mpr (fun hh => hv hh.symm)⟩
      rw [show ({ r with Fabric := v } : ConfigProfile).Fabric = v from rfl] at hc
      rw [hc.1] at hg
      exact Bool.false_ne_true hg
  · intro hf v hv
    cases hval : p.Validate { r with Deployment := v } c with
    | false => rfl
    | true =>
      exfalso
      have hc := (Validate_chain p { r with Deployment := v } c).mp hval
      have hg : (p.ProfileRequirements.Deployment != "" &&
          p.ProfileRequirements.Deployment != v) = true := by
        rw [Bool.and_eq_true]
        exact ⟨bne_iff_ne.mpr hf, bne_iff_ne.mpr (fun hh => hv hh.symm)⟩
      rw [show ({ r with Deployment := v } : ConfigProfile).Deployment = v
        from rfl] at hc
      rw [hc.2.1] at hg
      exact Bool.false_ne_true hg
  · intro b hb
    cases hval : p.Validate { r with Multirail := !b } c with
    | false => rfl
    | true =>
      exfalso
      have hc := (Validate_chain p { r with Multirail := !b } c).mp hval
      have hg := hc.2.2.1
      rw [hb] at hg
      cases b <;> simp_all
  · intro b hb
    cases hval : p.Validate { r with SpectrumX := !b } c with
    | false => rfl
    | true =>
      exfalso
      have hc := (Validate_chain p { r with SpectrumX := !b } c).mp hval
      have hg := hc.2.2.2.1
      rw [hb] at hg
      cases b <;> simp_all
  · intro b hb
    cases hval : p.Validate { r with Ai := !b } c with
    | false => rfl
    | true =>
      exfalso
      have hc := (Validate_chain p { r with Ai := !b } c).mp hval
      have hg := hc.2.2.2.2.1
      rw [hb] at hg
      cases b <;> simp_all
  · intro b hb
    cases hval : p.Validate r { c with Nodes := { c.Nodes with Sriov := !b } } with
    | false => rfl
    | true =>
      exfalso
      have hc := (Validate_chain p r
        { c with Nodes := { c.Nodes with Sriov := !b } }).mp hval
      have hg := hc.2.2.2.2.2.1
      rw [hb] at hg
      cases b <;> simp_all
  · intro b hb
    cases hval : p.Validate r { c with Nodes := { c.Nodes with Rdma := !b } } with
    | false => rfl
    | true =>
      exfalso
      have hc := (Validate_chain p r
        { c with Nodes := { c.Nodes with Rdma := !b } }).mp hval
      have hg := hc.2.2.2.2.2.2.1
      rw [hb] at hg
      cases b <;> simp_all
  · intro b hb
    cases hval : p.Validate r { c with Nodes := { c.Nodes with Ib := !b } } with
    | false => rfl
    | true =>
      exfalso
      have hc := (Validate_chain p r
        { c with Nodes := { c.Nodes with Ib := !b } }).mp hval
      have hg := hc.2.2.2.2.2.2.2
      rw [hb] at hg
      cases b <;> simp_all

theorem validate_declared_field_flip_witness :
    declaredProfile.Validate sampleReq sampleCaps = true ∧
    declaredProfile.Validate { sampleReq with Fabric := "infiniband" }
      sampleCaps = false ∧
    declaredProfile.Validate { sampleReq with Multirail := !true }
      sampleCaps = false ∧
    declaredProfile.Validate sampleReq
      { sampleCaps with Nodes := { sampleCaps.Nodes with Sriov := !true } }
      = false := by
  have h := validate_declared_field_flip declaredProfile sampleReq sampleCaps
    (by decide)
  exact ⟨by decide, h.1 (by decide) "infiniband" (by decide),
    h.2.2.1 true rfl, h.2.2.2.2.2.1 true rfl⟩

/-- Whitespace class of `strings.TrimSpace` (the Latin-1 part of
`unicode.IsSpace`). -/
def goIsSpace (c : Char) : Bool :=
  c == ' ' || c == '\t' || c == '\n' || c == '\u000B' || c == '\u000C' ||
  c == '\r' || c == '\u0085' || c == ' '

/-- Embeds `strings.TrimSpace`: drop whitespace from both ends. -/
def goTrimSpace (s : String) : String :=
  String.mk (((s.data.dropWhile goIsSpace).reverse.dropWhile goIsSpace).reverse)

/-- Embeds `strings.HasPrefix`. -/
def goHasPre (s pre : String) : Bool := List.isPrefixOf pre.data s.data

/-- Embeds `strings.TrimPrefix`. -/
def goDropPre (s pre : String) : String :=
  if goHasPre s pre then String.mk (s.data.drop pre.data.length) else s

/-- Embeds `strings.HasSuffix` (written through reversed prefixes, as core's
`List.isSuffixOf` is). -/
def goHasSuf (s suf : String) : Bool :=
  List.isPrefixOf suf.data.reverse s.data.reverse

/-- Embeds `strings.TrimSuffix`. -/
def goDropSuf (s suf : String) : String :=
  if goHasSuf s suf then
    String.mk (s.data.take (s.data.length - suf.data.length))
  else s

/-- The leading-fence branch of `trimMarkdownJSON` (pkg/llm/llm.go lines
150-155): a leading three-backtick-json fence, else a plain three-backtick
fence, is removed. -/
def stripLeadFence (s : String) : String :=
  if goHasPre s "```json" then goDropPre s "```json"
  else if goHasPre s "```" then goDropPre s "```"
  else s

/-- The trailing-fence branch of `trimMarkdownJSON` (pkg/llm/llm.go lines
157-160). -/
def stripTrailFence (s : String) : String :=
  if goHasSuf s "```" then goDropSuf s "```" else s

/-- Embeds `trimMarkdownJSON` (pkg/llm/llm.go lines 147-163): trim
whitespace, strip a leading fence, strip a trailing fence independently,
trim whitespace again. -/
def trimMarkdownJSON (s : String) : String :=
  goTrimSpace (stripTrailFence (stripLeadFence (goTrimSpace s)))

theorem string_mk_data (s : String) : String.mk s.data = s := rfl

theorem data_head_of_pre {s : String} {c : Char}
    (h : List.isPrefixOf [c] s.data = true) : ∃ t, s.data = c :: t := by
  cases hs : s.data with
  | nil => rw [hs] at h; simp [List.isPrefixOf] at h
  | cons a t =>
    rw [hs] at h
    simp [List.isPrefixOf] at h
    exact ⟨t, by rw [h]⟩

theorem dropWhile_of_head_not {c : Char} {l : List Char}
    (h : goIsSpace c = false) :
    (c :: l).dropWhile goIsSpace = c :: l := by
  simp [List.dropWhile_cons, h]

theorem pre_false_of_head {a b : Char} {pre t : List Char}
    (h : a ≠ b) : List.isPrefixOf (a :: pre) (b :: t) = false := by
  simp [List.isPrefixOf, h]

/-- C5: markdown-fence stripping is idempotent on already-stripped input:
every string beginning with a left brace and ending with a right brace (no
surrounding whitespace) is a fixed point of `trimMarkdownJSON`, and
stripping the fenced form of a small JSON object equals stripping the bare
form equals the bare form. -/
theorem trimMarkdownJSON_idempotent_stripped (s : String)
    (h1 : goHasPre s "\x7b" = true) (h2 : goHasSuf s "\x7d" = true) :
    trimMarkdownJSON s = s ∧
    trimMarkdownJSON "```json\n\x7b\"a\":1\x7d\n```" =
      trimMarkdownJSON "\x7b\"a\":1\x7d" ∧
    trimMarkdownJSON "\x7b\"a\":1\x7d" = "\x7b\"a\":1\x7d" := by
  refine ⟨?_, by decide, by decide⟩
  rw [goHasPre] at h1
  rw [goHasSuf] at h2
  obtain ⟨t, ht⟩ := data_head_of_pre (s := s) (c := '\x7b') h1
  have h2' : List.isPrefixOf ['\x7d'] s.data.reverse = true := h2
  obtain ⟨u, hu⟩ : ∃ u, s.data.reverse = '\x7d' :: u := by
    cases hs : s.data.reverse with
    | nil => rw [hs] at h2'; exact absurd h2' (by decide)
    | cons a t2 =>
      rw [hs] at h2'
      simp [List.isPrefixOf] at h2'
      exact ⟨t2, by rw [h2']⟩
  have hds : s.data.dropWhile goIsSpace = s.data := by
    rw [ht]; exact dropWhile_of_head_not (by decide)
  have hdr : s.data.reverse.dropWhile goIsSpace = s.data.reverse := by
    rw [hu]; exact dropWhile_of_head_not (by decide)
  have htrim : goTrimSpace s = s := by
    rw [goTrimSpace, hds, hdr, List.reverse_reverse, string_mk_data]
  have hpre1 : goHasPre s "```json" = false := by
    rw [goHasPre, ht]
    exact pre_false_of_head (by decide)
  have hpre2 : goHasPre s "```" = false := by
    rw [goHasPre, ht]
    exact pre_false_of_head (by decide)
  have hsuf : goHasSuf s "```" = false := by
    rw [goHasSuf, hu]
    exact pre_false_of_head (by decide)
  have hlead : stripLeadFence s = s := by
    rw [stripLeadFence, if_neg (by simp [hpre1]), if_neg (by simp [hpre2])]
  have htrail : stripTrailFence s = s := by
    rw [stripTrailFence, if_neg (by simp [hsuf])]
  rw [trimMarkdownJSON, htrim, hlead, htrail, htrim]

theorem trimMarkdownJSON_idempotent_stripped_witness :
    trimMarkdownJSON "\x7b\"a\":1\x7d" = "\x7b\"a\":1\x7d" :=
  (trimMarkdownJSON_idempotent_stripped "\x7b\"a\":1\x7d"
    (by decide) (by decide)).1

/-- JSON scalar values as unmarshalled by encoding/json into a flat
string-keyed interface map, over the scalar fragment exercised by the
session: strings, booleans, null, and numeric literals kept as their
lexeme (nested objects and arrays are not produced by the modelled
responses). -/
inductive Jval where
  | jstr : String → Jval
  | jbool : Bool → Jval
  | jnull : Jval
  | jnum : String → Jval
  deriving DecidableEq

/-- JSON structural whitespace. -/
def isJsonWs (c : Char) : Bool :=
  c == ' ' || c == '\t' || c == '\n' || c == '\r'

def skipWs : List Char → List Char
  | [] => []
  | c :: rest => if isJsonWs c then skipWs rest else c :: rest

/-- JSON string escape codes (\uXXXX escapes are not exercised by the
modelled responses and are rejected). -/
def escChar : Char → Option Char
  | '"' => some '"'
  | '\\' => some '\\'
  | '/' => some '/'
  | 'b' => some '\u0008'
  | 'f' => some '\u000C'
  | 'n' => some '\n'
  | 'r' => some '\r'
  | 't' => some '\t'
  | _ => none

/-- Parses the body of a JSON string after its opening quote, returning the
content and the remainder after the closing quote. -/
def parseStringBody : List Char → Option (List Char × List Char)
  | [] => none
  | '\\' :: c :: rest =>
    match escChar c with
    | some e => (parseStringBody rest).map (fun r => (e :: r.1, r.2))
    | none => none
  | '"' :: rest => some ([], rest)
  | c :: rest => (parseStringBody rest).map (fun r => (c :: r.1, r.2))

/-- Exponent part of a JSON number literal. -/
def expPart (e : Char) (r : List Char) : List Char × List Char :=
  match r with
  | '+' :: r2 =>
    let sp := r2.span (fun c => c.isDigit); (e :: '+' :: sp.1, sp.2)
  | '-' :: r2 =>
    let sp := r2.span (fun c => c.isDigit); (e :: '-' :: sp.1, sp.2)
  | _ =>
    let sp := r.span (fun c => c.isDigit); (e :: sp.1, sp.2)

/-- Parses a JSON number literal, keeping its lexeme (more lenient than Go's
grammar on leading zeros; the modelled inputs contain plain integers). -/
def parseNum (l : List Char) : Option (List Char × List Char) :=
  let signed : List Char × List Char := match l with
    | '-' :: r => (['-'], r)
    | _ => ([], l)
  let ds : List Char × List Char := signed.2.span (fun c => Char.isDigit c)
  if ds.1.isEmpty then none
  else
    let frac : List Char × List Char := match ds.2 with
      | '.' :: r =>
        let fs := r.span (fun c => Char.isDigit c); ('.' :: fs.1, fs.2)
      | _ => ([], ds.2)
    let ex : List Char × List Char := match frac.2 with
      | 'e' :: r => expPart 'e' r
      | 'E' :: r => expPart 'E' r
      | _ => ([], frac.2)
    some (signed.1 ++ ds.1 ++ frac.1 ++ ex.1, ex.2)

/-- Parses one JSON scalar value. -/
def parseScalar (l : List Char) : Option (Jval × List Char) :=
  match l with
  | '"' :: rest =>
    (parseStringBody rest).map (fun r => (Jval.jstr (String.mk r.1), r.2))
  | 't' :: 'r' :: 'u' :: 'e' :: rest => some (Jval.jbool true, rest)
  | 'f' :: 'a' :: 'l' :: 's' :: 'e' :: rest => some (Jval.jbool false, rest)
  | 'n' :: 'u' :: 'l' :: 'l' :: rest => some (Jval.jnull, rest)
  | _ => (parseNum l).map (fun r => (Jval.jnum (String.mk r.1), r.2))

/-- Map insertion with Go's last-write-wins semantics for duplicate keys. -/
def mapInsert (k : String) (v : Jval) :
    List (String × Jval) → List (String × Jval)
  | [] => [(k, v)]
  | kv :: rest => if kv.1 == k then (k, v) :: rest else kv :: mapInsert k v rest

/-- Parses the members of a flat JSON object after its opening brace; the
fuel is an upper bound on the member count. -/
def parseMembers : Nat → List (String × Jval) → List Char →
    Option (List (String × Jval) × List Char)
  | 0, _, _ => none
  | fuel + 1, acc, l =>
    match skipWs l with
    | '"' :: rest =>
      match parseStringBody rest with
      | none => none
      | some (key, r1) =>
        match skipWs r1 with
        | ':' :: r2 =>
          match parseScalar (skipWs r2) with
          | none => none
          | some (v, r3) =>
            match skipWs r3 with
            | ',' :: r4 => parseMembers fuel (mapInsert (String.mk key) v acc) r4
            | '\x7d' :: r4 => some (mapInsert (String.mk key) v acc, r4)
            | _ => none
        | _ => none
    | _ => none

/-- Parses a whole string as one flat JSON object (encoding/json rejects
trailing non-whitespace, mirrored here). -/
def parseJsonFlat (s : String) : Option (List (String × Jval)) :=
  match skipWs s.data with
  | '\x7b' :: rest =>
    match skipWs rest with
    | '\x7d' :: r2 => if skipWs r2 = [] then some [] else none
    | _ =>
      match parseMembers (rest.length + 1) [] rest with
      | some (m, r2) => if skipWs r2 = [] then some m else none
      | none => none
  | _ => none

/-- Embeds the value coercion `fmt.Sprintf` of a percent-v verb on an
unmarshalled JSON scalar: strings print as themselves, booleans as
true/false, nil as a bracketed nil; a numeric literal's float formatting is
modelled as its lexeme. -/
def goSprintfV : Jval → String
  | .jstr s => s
  | .jbool b => if b then "true" else "false"
  | .jnull => "<nil>"
  | .jnum lit => lit

/-- Reads a key of a flat string map, the Go zero value for missing keys. -/
def mapGet (m : List (String × String)) (k : String) : String :=
  match m.find? (fun kv => kv.1 == k) with
  | some kv => kv.2
  | none => ""

/-- Embeds `strings.Index` for a single-character needle, with Go's minus
one for absence (indices counted in characters rather than bytes). -/
def goIndexChar (s : String) (c : Char) : Int :=
  match s.data.findIdx? (fun x => x == c) with
  | some i => (i : Int)
  | none => -1

/-- Embeds `strings.LastIndex` for a single-character needle. -/
def goLastIndexChar (s : String) (c : Char) : Int :=
  match s.data.reverse.findIdx? (fun x => x == c) with
  | some i => (s.data.length : Int) - 1 - i
  | none => -1

/-- Embeds a Go substring slice from index a inclusive to b exclusive. -/
def goSlice (s : String) (a b : Int) : String :=
  String.mk ((s.data.drop a.toNat).take (b - a).toNat)

/-- Message roles of the langchaingo message contents used by the session. -/
inductive MsgRole where
  | system
  | human
  | ai
  deriving DecidableEq

/-- One history entry of the chat session. -/
structure ChatMessage where
  role : MsgRole
  content : String
  deriving DecidableEq

/-- Embeds `llm.ChatSession` (pkg/llm/llm.go): ordered message history, the
fixed system prompt, the serialized cluster config, and the most recent
model response. The llm client handle is not state read by any embedded
operation; the completion call is injected into `SendMessage`. -/
structure ChatSession where
  messages : List ChatMessage
  systemPrompt : String
  clusterConfig : String
  lastResponse : String
  deriving DecidableEq

/-- Embeds `(*ChatSession).ExtractProfile` (pkg/llm/llm.go lines 239-271):
fail on an empty last response; strip markdown fences; locate the first left
brace and last right brace; fail when no balanced pair exists; parse the
slice as JSON; coerce every scalar value to its string representation. -/
def ChatSession.ExtractProfile (c : ChatSession) :
    Except String (List (String × String)) :=
  if c.lastResponse = "" then .error "no response to extract profile from"
  else
    let response := trimMarkdownJSON c.lastResponse
    let startIdx := goIndexChar response '\x7b'
    let endIdx := goLastIndexChar response '\x7d'
    if startIdx = -1 ∨ endIdx = -1 ∨ endIdx ≤ startIdx then
      .error "no valid JSON found in response"
    else
      match parseJsonFlat (goSlice response startIdx (endIdx + 1)) with
      | none => .error "failed to parse profile JSON"
      | some raw => .ok (raw.map (fun kv => (kv.1, goSprintfV kv.2)))

/-- Embeds `(*ChatSession).SendMessage` (pkg/llm/llm.go lines 205-236): the
user turn is appended first; the whole system prompt plus history is sent;
a failed call or an empty choice list is an error; on success the first
choice becomes the last response and is appended as the assistant turn. The
langchaingo `GenerateContent` call is the injected `gen`. -/
def ChatSession.SendMessage (c : ChatSession) (userMessage : String)
    (gen : List ChatMessage → Except String (List String)) :
    Except String String × ChatSession :=
  let c1 := { c with messages := c.messages ++ [⟨.human, userMessage⟩] }
  let allMessages := (⟨MsgRole.system, c1.systemPrompt⟩ : ChatMessage) :: c1.messages
  match gen allMessages with
  | .error e => (.error ("failed to generate response: " ++ e), c1)
  | .ok [] => (.error "no response from LLM", c1)
  | .ok (content :: _) =>
    (.ok content,
     { c1 with
       lastResponse := content,
       messages := c1.messages ++ [⟨.ai, content⟩] })

/-- C4: `ExtractProfile` parses only the most recent assistant response —
sessions agreeing on `lastResponse` extract identically whatever their
histories and prompts — by stripping markdown fences, slicing from the first
left brace to the last right brace, parsing the slice as a JSON object, and
coercing every scalar value, booleans included, to its string
representation: the raw boolean object over multirail and spectrumX yields
the string map with values "true" and "false", with or without surrounding
prose and fences. -/
theorem ExtractProfile_last_response_only (c1 c2 : ChatSession)
    (h : c1.lastResponse = c2.lastResponse) :
    c1.ExtractProfile = c2.ExtractProfile ∧
    ChatSession.ExtractProfile
      ⟨[], "sys", "cfg", "\x7b\"multirail\": true, \"spectrumX\": false\x7d"⟩ =
      .ok [("multirail", "true"), ("spectrumX", "false")] ∧
    ChatSession.ExtractProfile
      ⟨[⟨.human, "hi"⟩], "sys2", "cfg2",
       "Recommendation:\n```json\n\x7b\"multirail\": true, \"spectrumX\": false\x7d\n```\ndone"⟩ =
      .ok [("multirail", "true"), ("spectrumX", "false")] := by
  refine ⟨?_, rfl, rfl⟩
  rw [ChatSession.ExtractProfile, ChatSession.ExtractProfile, h]

theorem ExtractProfile_last_response_only_witness :
    ChatSession.ExtractProfile
      ⟨[], "s", "c", "\x7b\"a\": true\x7d"⟩ =
      ChatSession.ExtractProfile
        ⟨[⟨.ai, "x"⟩], "s2", "c2", "\x7b\"a\": true\x7d"⟩ :=
  (ExtractProfile_last_response_only
    ⟨[], "s", "c", "\x7b\"a\": true\x7d"⟩
    ⟨[⟨.ai, "x"⟩], "s2", "c2", "\x7b\"a\": true\x7d"⟩ rfl).1

/-- C6: extraction failures are distinct and diagnosable: an empty last
response yields the no-response error; a nonempty last response whose
stripped text has no balanced brace pair — no left brace, no right brace, or
the last right brace not strictly after the first left brace ("just text"
concretely) — yields the no-valid-JSON error; and the two error messages
differ, so the cases are never conflated. -/
theorem ExtractProfile_distinct_errors :
    (∀ c : ChatSession, c.lastResponse = "" →
      c.ExtractProfile = .error "no response to extract profile from") ∧
    (∀ c : ChatSession, c.lastResponse ≠ "" →
      (goIndexChar (trimMarkdownJSON c.lastResponse) '\x7b' = -1 ∨
       goLastIndexChar (trimMarkdownJSON c.lastResponse) '\x7d' = -1 ∨
       goLastIndexChar (trimMarkdownJSON c.lastResponse) '\x7d' ≤
         goIndexChar (trimMarkdownJSON c.lastResponse) '\x7b') →
      c.ExtractProfile = .error "no valid JSON found in response") ∧
    ChatSession.ExtractProfile ⟨[], "s", "c", "just text"⟩ =
      .error "no valid JSON found in response" ∧
    ("no response to extract profile from" : String) ≠
      "no valid JSON found in response" := by
  refine ⟨?_, ?_, rfl, by decide⟩
  · intro c h
    rw [ChatSession.ExtractProfile, if_pos h]
  · intro c hne hbr
    simp only [ChatSession.ExtractProfile]
    rw [if_neg hne, if_pos hbr]

theorem ExtractProfile_distinct_errors_witness :
    ChatSession.ExtractProfile ⟨[], "s", "c", ""⟩ =
      .error "no response to extract profile from" ∧
    ChatSession.ExtractProfile ⟨[⟨.ai, "t"⟩], "s", "c", "just text"⟩ =
      .error "no valid JSON found in response" :=
  ⟨ExtractProfile_distinct_errors.1 ⟨[], "s", "c", ""⟩ rfl,
   ExtractProfile_distinct_errors.2.1 ⟨[⟨.ai, "t"⟩], "s", "c", "just text"⟩
     (by decide) (by decide)⟩

/-- C10: `SendMessage` appends the human turn before the completion call, so
on every error (failed call or empty choice list) the history has gained
exactly the user message while the last response and the system prompt are
unchanged; on success exactly one human and one assistant turn are appended
and the last response becomes the assistant text; in all cases the prior
history is a prefix of the new history — never rewritten or removed. -/
theorem SendMessage_appends_history (c : ChatSession) (userMessage : String)
    (gen : List ChatMessage → Except String (List String)) :
    (c.SendMessage userMessage gen).2.systemPrompt = c.systemPrompt ∧
    (∀ e, (c.SendMessage userMessage gen).1 = .error e →
      (c.SendMessage userMessage gen).2.messages =
        c.messages ++ [⟨.human, userMessage⟩] ∧
      (c.SendMessage userMessage gen).2.lastResponse = c.lastResponse) ∧
    (∀ t, (c.SendMessage userMessage gen).1 = .ok t →
      (c.SendMessage userMessage gen).2.messages =
        c.messages ++ [⟨.human, userMessage⟩, ⟨.ai, t⟩] ∧
      (c.SendMessage userMessage gen).2.lastResponse = t) ∧
    c.messages <+: (c.SendMessage userMessage gen).2.messages := by
  cases hg : gen (⟨MsgRole.system, c.systemPrompt⟩ ::
      (c.messages ++ [⟨.human, userMessage⟩])) with
  | error e =>
    simp [ChatSession.SendMessage, hg]
  | ok choices =>
    cases choices with
    | nil => simp [ChatSession.SendMessage, hg]
    | cons content rest =>
      simp [ChatSession.SendMessage, hg]

theorem SendMessage_appends_history_witness :
    (ChatSession.SendMessage ⟨[], "sys", "cfg", ""⟩ "hello"
      (fun _ => .ok ["resp"])).2.messages =
      [] ++ [⟨.human, "hello"⟩, ⟨.ai, "resp"⟩] ∧
    (ChatSession.SendMessage ⟨[], "sys", "cfg", ""⟩ "hello"
      (fun _ => .ok ["resp"])).2.lastResponse = "resp" :=
  (SendMessage_appends_history ⟨[], "sys", "cfg", ""⟩ "hello"
    (fun _ => .ok ["resp"])).2.2.1 "resp" rfl

/-- CLI options of the launcher as read by `executeWorkflow`
(pkg/options as used in pkg/app/launcher.go). -/
structure Options where
  DiscoverClusterConfig : Bool
  SaveClusterConfig : String
  UserConfig : String
  Prompt : String
  LLMInteractive : Bool
  Deploy : Bool
  SaveDeploymentFiles : String
  deriving DecidableEq

/-- The slice of `config.LaunchKubernetesConfig` the workflow control flow
reads: the optional persisted profile section and the cluster
capabilities. -/
structure FullConfig where
  Profile : Option ConfigProfile
  Capabilities : ClusterCapabilities
  deriving DecidableEq

/-- A registered capability provider (the pkg/plugin interface) with its
behaviour injected as result-valued collaborator functions; the workflow's
control flow over them is what is verified. -/
structure PluginModel where
  name : String
  profileConfiguredInCmd : Options → Bool
  buildProfileFromOptions : Options → ConfigProfile → Except String ConfigProfile
  buildProfileFromLLMResponse :
    List (String × String) → ConfigProfile → Except String ConfigProfile
  generateFiles : Profile → FullConfig → Except String (List (String × String))
  deployProfile : Profile → Except String Unit

/-- The collaborators of one run: the registered plugins, the outcome of
`discoverClusterConfig`, config loading, the single-shot LLM call, the
interactive session outcome, and the on-disk profile catalog. -/
structure Env where
  plugins : List PluginModel
  discoverResult : Except String Unit
  loadFullConfig : String → Except String FullConfig
  selectPromptResult : String → Except String (List (String × String))
  interactiveResult : Except String (List (String × String))
  catalog : List CatalogEntry

/-- Observable provider and LLM interactions of one workflow run, appended
in order of occurrence per kind. -/
structure Trace where
  buildFromOptionsCalls : List String
  interactiveStarted : Bool
  singleShotStarted : Bool
  buildFromLLMCalls : List String
  resolutionCalls : List String
  resolutionRequirements : Option ConfigProfile
  generateCalls : List String
  deployCalls : List String
  deriving DecidableEq

def emptyTrace : Trace := ⟨[], false, false, [], [], none, [], []⟩

/-- The zero-valued requirements descriptor the launcher allocates before
the build loops (launcher.go line 136). -/
def emptyConfigProfile : ConfigProfile := ⟨"", "", false, false, false⟩

/-- The config path phase one of `executeWorkflow` resolves (launcher.go
lines 103-114): the discovery output path when discovery is requested, the
user-supplied path otherwise. -/
def configPathOf (opts : Options) : String :=
  if opts.DiscoverClusterConfig then opts.SaveClusterConfig else opts.UserConfig

/-- The low-confidence abort message of the single-shot path (launcher.go
line 188), carrying the response's reasoning text. -/
def lowConfidenceMsg (reasoning : String) : String :=
  "couldn't select a deployment profile based on the user prompt. Try again with a different prompt or use the cli flags (--fabric, --deployment-type, --multirail) to select the profile manually. Reason: "
    ++ reasoning

/-- The per-plugin BuildProfileFromOptions loop (launcher.go lines
138-143). -/
def buildFromOptionsAll (opts : Options) (plugins : List PluginModel)
    (prof : ConfigProfile) (tr : Trace) : Except String ConfigProfile × Trace :=
  match plugins with
  | [] => (.ok prof, tr)
  | pl :: rest =>
    let tr2 := { tr with
      buildFromOptionsCalls := tr.buildFromOptionsCalls ++ [pl.name] }
    match pl.buildProfileFromOptions opts prof with
    | .error e =>
      (.error ("failed to build profile for plugin " ++ pl.name ++ ": " ++ e),
       tr2)
    | .ok prof2 => buildFromOptionsAll opts rest prof2 tr2

/-- The per-plugin BuildProfileFromLLMResponse loop (launcher.go lines
154-158 and 191-196). -/
def buildFromLLMAll (m : List (String × String)) (plugins : List PluginModel)
    (prof : ConfigProfile) (tr : Trace) : Except String ConfigProfile × Trace :=
  match plugins with
  | [] => (.ok prof, tr)
  | pl :: rest =>
    let tr2 := { tr with
      buildFromLLMCalls := tr.buildFromLLMCalls ++ [pl.name] }
    match pl.buildProfileFromLLMResponse m prof with
    | .error e =>
      (.error ("failed to build profile for plugin " ++ pl.name ++ ": " ++ e),
       tr2)
    | .ok prof2 => buildFromLLMAll m rest prof2 tr2

/-- The requirements-acquisition block of `executeWorkflow` (launcher.go
lines 135-212): a persisted profile is used unchanged; otherwise command
flags, else the interactive session, else the single-shot prompt with its
low-confidence gate, else the no-profile error. -/
def runAcquisition (env : Env) (opts : Options) (cfg : FullConfig)
    (tr : Trace) : Except String ConfigProfile × Trace :=
  match cfg.Profile with
  | some p => (.ok p, tr)
  | none =>
    if env.plugins.all (fun pl => pl.profileConfiguredInCmd opts) then
      buildFromOptionsAll opts env.plugins emptyConfigProfile tr
    else if opts.LLMInteractive then
      let tr2 := { tr with interactiveStarted := true }
      match env.interactiveResult with
      | .error e => (.error ("interactive session failed: " ++ e), tr2)
      | .ok m => buildFromLLMAll m env.plugins emptyConfigProfile tr2
    else if opts.Prompt != "" then
      let tr2 := { tr with singleShotStarted := true }
      match env.selectPromptResult opts.Prompt with
      | .error e => (.error ("failed to select prompt: " ++ e), tr2)
      | .ok m =>
        if mapGet m "confidence" == "low" then
          (.error (lowConfidenceMsg (mapGet m "reasoning")), tr2)
        else buildFromLLMAll m env.plugins emptyConfigProfile tr2
    else
      (.error "no profile configured in the command line and no prompt provided",
       tr)

/-- The per-plugin resolution loop (launcher.go lines 214-223): one
`FindApplicableProfile` call per registered plugin, the first failure
aborting the run with the unwrapped error. -/
def runResolution (env : Env) (req : ConfigProfile)
    (caps : ClusterCapabilities) (plugins : List PluginModel) (tr : Trace) :
    Except String (List Profile) × Trace :=
  match plugins with
  | [] => (.ok [], tr)
  | pl :: rest =>
    let tr2 := { tr with resolutionCalls := tr.resolutionCalls ++ [pl.name] }
    match FindApplicableProfile env.catalog req caps pl.name with
    | .error e => (.error e, tr2)
    | .ok p =>
      match runResolution env req caps rest tr2 with
      | (.ok ps, tr3) => (.ok (p :: ps), tr3)
      | (.error e, tr3) => (.error e, tr3)

/-- The generation loop (launcher.go lines 225-234 and 316-337): dispatch to
the owning plugin by name, render the files, and persist them when an output
directory is configured (the disk writes are collaborator effects modelled
as succeeding). -/
def runGeneration (env : Env) (opts : Options) (cfg : FullConfig)
    (profs : List Profile) (tr : Trace) : Except String Unit × Trace :=
  match profs with
  | [] => (.ok (), tr)
  | p :: rest =>
    match env.plugins.find? (fun pl => pl.name == p.Plugin) with
    | none =>
      (.error ("deployment files generation failed: plugin " ++ p.Plugin ++
        " not found"), tr)
    | some pl =>
      let tr2 := { tr with generateCalls := tr.generateCalls ++ [pl.name] }
      match pl.generateFiles p cfg with
      | .error e =>
        (.error
          ("deployment files generation failed: failed to process profile templates: "
            ++ e), tr2)
      | .ok _ => runGeneration env opts cfg rest tr2

/-- The deployment loop (launcher.go lines 237-245 and 371-400): per
profile, `deployConfigurationProfile` checks the deploy flag, fails fast
when no generated-files directory is configured, looks up the owning
plugin, and only then invokes its DeployProfile. -/
def runDeployment (env : Env) (opts : Options) (profs : List Profile)
    (tr : Trace) : Except String Unit × Trace :=
  match profs with
  | [] => (.ok (), tr)
  | p :: rest =>
    if !opts.Deploy then runDeployment env opts rest tr
    else if opts.SaveDeploymentFiles == "" then
      (.error
        "deployment failed: --deploy requires generated files directory; provide --save-deployment-files",
       tr)
    else
      match env.plugins.find? (fun pl => pl.name == p.Plugin) with
      | none => (.error ("deployment failed: plugin " ++ p.Plugin ++ " not found"), tr)
      | some pl =>
        let tr2 := { tr with deployCalls := tr.deployCalls ++ [pl.name] }
        match pl.deployProfile p with
        | .error e => (.error ("deployment failed: failed to deploy profile: " ++ e), tr2)
        | .ok _ => runDeployment env opts rest tr2

/-- The resolution, generation and optional deployment phases that follow a
successful requirements acquisition (launcher.go lines 214-245). -/
def runPostAcquisition (env : Env) (opts : Options) (cfg : FullConfig)
    (req : ConfigProfile) (tr : Trace) : Except String Unit × Trace :=
  match runResolution env req cfg.Capabilities env.plugins
      { tr with resolutionRequirements := some req } with
  | (.error e, tr3) => (.error e, tr3)
  | (.ok profs, tr3) =>
    match runGeneration env opts cfg profs tr3 with
    | (.error e, tr4) => (.error e, tr4)
    | (.ok _, tr4) =>
      if opts.Deploy then runDeployment env opts profs tr4
      else (.ok (), tr4)

/-- Embeds `executeWorkflow` (pkg/app/launcher.go lines 99-250): discovery,
the early no-op exit when no requirements source was given at all, config
loading, requirements acquisition, per-plugin resolution, generation, and
optional deployment, each failure aborting the run. The body of
`discoverClusterConfig` is collaborator I/O summarized by
`env.discoverResult`. -/
def executeWorkflow (env : Env) (opts : Options) : Except String Unit × Trace :=
  match (if opts.DiscoverClusterConfig then
          match env.discoverResult with
          | .error e => Except.error ("cluster discovery failed: " ++ e)
          | .ok _ => Except.ok ()
        else Except.ok ()) with
  | .error e => (.error e, emptyTrace)
  | .ok _ =>
    if !(env.plugins.all (fun pl => pl.profileConfiguredInCmd opts)) &&
        opts.Prompt == "" && !opts.LLMInteractive then
      (.ok (), emptyTrace)
    else
      match env.loadFullConfig (configPathOf opts) with
      | .error e => (.error ("failed to load full config: " ++ e), emptyTrace)
      | .ok fullConfig =>
        match runAcquisition env opts fullConfig emptyTrace with
        | (.error e, tr) => (.error e, tr)
        | (.ok req, tr) => runPostAcquisition env opts fullConfig req tr

theorem buildFromOptionsAll_trace (opts : Options) (plugins : List PluginModel)
    (prof : ConfigProfile) (tr : Trace) :
    ∃ x, (buildFromOptionsAll opts plugins prof tr).2 =
      { tr with buildFromOptionsCalls := x } := by
  induction plugins generalizing prof tr with
  | nil => exact ⟨tr.buildFromOptionsCalls, rfl⟩
  | cons pl rest ih =>
    simp only [buildFromOptionsAll]
    cases pl.buildProfileFromOptions opts prof with
    | error e => exact ⟨tr.buildFromOptionsCalls ++ [pl.name], rfl⟩
    | ok prof2 =>
      obtain ⟨x, hx⟩ := ih prof2
        { tr with buildFromOptionsCalls := tr.buildFromOptionsCalls ++ [pl.name] }
      exact ⟨x, by rw [hx]⟩

theorem buildFromLLMAll_trace (m : List (String × String))
    (plugins : List PluginModel) (prof : ConfigProfile) (tr : Trace) :
    ∃ x, (buildFromLLMAll m plugins prof tr).2 =
      { tr with buildFromLLMCalls := x } := by
  induction plugins generalizing prof tr with
  | nil => exact ⟨tr.buildFromLLMCalls, rfl⟩
  | cons pl rest ih =>
    simp only [buildFromLLMAll]
    cases pl.buildProfileFromLLMResponse m prof with
    | error e => exact ⟨tr.buildFromLLMCalls ++ [pl.name], rfl⟩
    | ok prof2 =>
      obtain ⟨x, hx⟩ := ih prof2
        { tr with buildFromLLMCalls := tr.buildFromLLMCalls ++ [pl.name] }
      exact ⟨x, by rw [hx]⟩

theorem runAcquisition_trace (env : Env) (opts : Options) (cfg : FullConfig)
    (tr : Trace) :
    ∃ a b c d, (runAcquisition env opts cfg tr).2 =
      { tr with buildFromOptionsCalls := a, interactiveStarted := b,
                singleShotStarted := c, buildFromLLMCalls := d } := by
  rw [runAcquisition]
  cases cfg.Profile with
  | some p =>
    exact ⟨tr.buildFromOptionsCalls, tr.interactiveStarted,
      tr.singleShotStarted, tr.buildFromLLMCalls, rfl⟩
  | none =>
    by_cases hall : env.plugins.all (fun pl => pl.profileConfiguredInCmd opts) = true
    · rw [if_pos hall]
      obtain ⟨x, hx⟩ := buildFromOptionsAll_trace opts env.plugins
        emptyConfigProfile tr
      exact ⟨x, tr.interactiveStarted, tr.singleShotStarted,
        tr.buildFromLLMCalls, by rw [hx]⟩
    · rw [if_neg hall]
      by_cases hint : opts.LLMInteractive = true
      · rw [if_pos hint]
        cases env.interactiveResult with
        | error e =>
          exact ⟨tr.buildFromOptionsCalls, true, tr.singleShotStarted,
            tr.buildFromLLMCalls, rfl⟩
        | ok m =>
          obtain ⟨x, hx⟩ := buildFromLLMAll_trace m env.plugins
            emptyConfigProfile { tr with interactiveStarted := true }
          exact ⟨tr.buildFromOptionsCalls, true, tr.singleShotStarted, x,
            by rw [hx]⟩
      · rw [if_neg hint]
        by_cases hpr : (opts.Prompt != "") = true
        · rw [if_pos hpr]
          cases env.selectPromptResult opts.Prompt with
          | error e =>
            exact ⟨tr.buildFromOptionsCalls, tr.interactiveStarted, true,
              tr.buildFromLLMCalls, rfl⟩
          | ok m =>
            dsimp only
            by_cases hlow : (mapGet m "confidence" == "low") = true
            · rw [if_pos hlow]
              exact ⟨tr.buildFromOptionsCalls, tr.interactiveStarted, true,
                tr.buildFromLLMCalls, rfl⟩
            · rw [if_neg hlow]
              obtain ⟨x, hx⟩ := buildFromLLMAll_trace m env.plugins
                emptyConfigProfile { tr with singleShotStarted := true }
              exact ⟨tr.buildFromOptionsCalls, tr.interactiveStarted, true, x,
                by rw [hx]⟩
        · rw [if_neg hpr]
          exact ⟨tr.buildFromOptionsCalls, tr.interactiveStarted,
            tr.singleShotStarted, tr.buildFromLLMCalls, rfl⟩

theorem runResolution_trace (env : Env) (req : ConfigProfile)
    (caps : ClusterCapabilities) (plugins : List PluginModel) (tr : Trace) :
    ∃ x, (runResolution env req caps plugins tr).2 =
      { tr with resolutionCalls := x } := by
  induction plugins generalizing tr with
  | nil => exact ⟨tr.resolutionCalls, rfl⟩
  | cons pl rest ih =>
    simp only [runResolution]
    cases FindApplicableProfile env.catalog req caps pl.name with
    | error e => exact ⟨tr.resolutionCalls ++ [pl.name], rfl⟩
    | ok p =>
      obtain ⟨x, hx⟩ := ih
        { tr with resolutionCalls := tr.resolutionCalls ++ [pl.name] }
      rcases hr : runResolution env req caps rest
        { tr with resolutionCalls := tr.resolutionCalls ++ [pl.name] } with ⟨res, tr3⟩
      rw [hr] at hx
      cases res with
      | error e => exact ⟨x, hx⟩
      | ok ps => exact ⟨x, hx⟩

theorem runGeneration_trace (env : Env) (opts : Options) (cfg : FullConfig)
    (profs : List Profile) (tr : Trace) :
    ∃ x, (runGeneration env opts cfg profs tr).2 =
      { tr with generateCalls := x } := by
  induction profs generalizing tr with
  | nil => exact ⟨tr.generateCalls, rfl⟩
  | cons p rest ih =>
    simp only [runGeneration]
    cases env.plugins.find? (fun pl => pl.name == p.Plugin) with
    | none => exact ⟨tr.generateCalls, rfl⟩
    | some pl =>
      dsimp only
      cases pl.generateFiles p cfg with
      | error e => exact ⟨tr.generateCalls ++ [pl.name], rfl⟩
      | ok files =>
        obtain ⟨x, hx⟩ := ih
          { tr with generateCalls := tr.generateCalls ++ [pl.name] }
        exact ⟨x, by dsimp only; rw [hx]⟩

theorem runDeployment_trace (env : Env) (opts : Options)
    (profs : List Profile) (tr : Trace) :
    ∃ x, (runDeployment env opts profs tr).2 =
      { tr with deployCalls := x } := by
  induction profs generalizing tr with
  | nil => exact ⟨tr.deployCalls, rfl⟩
  | cons p rest ih =>
    simp only [runDeployment]
    by_cases hdep : (!opts.Deploy) = true
    · rw [if_pos hdep]
      exact ih tr
    · rw [if_neg hdep]
      by_cases hdir : (opts.SaveDeploymentFiles == "") = true
      · rw [if_pos hdir]
        exact ⟨tr.deployCalls, rfl⟩
      · rw [if_neg hdir]
        cases env.plugins.find? (fun pl => pl.name == p.Plugin) with
        | none => exact ⟨tr.deployCalls, rfl⟩
        | some pl =>
          dsimp only
          cases pl.deployProfile p with
          | error e => exact ⟨tr.deployCalls ++ [pl.name], rfl⟩
          | ok u =>
            obtain ⟨x, hx⟩ := ih
              { tr with deployCalls := tr.deployCalls ++ [pl.name] }
            exact ⟨x, by dsimp only; rw [hx]⟩

theorem runDeployment_nodir (env : Env) (opts : Options)
    (profs : List Profile) (tr : Trace)
    (hdep : opts.Deploy = true) (hdir : opts.SaveDeploymentFiles = "") :
    (runDeployment env opts profs tr).2 = tr ∧
    (profs ≠ [] → runDeployment env opts profs tr =
      (.error
        "deployment failed: --deploy requires generated files directory; provide --save-deployment-files",
       tr)) := by
  cases profs with
  | nil => exact ⟨rfl, fun h => absurd rfl h⟩
  | cons p rest =>
    rw [runDeployment, if_neg (by simp [hdep]), if_pos (by simp [hdir])]
    exact ⟨rfl, fun _ => rfl⟩

theorem runPostAcquisition_trace (env : Env) (opts : Options)
    (cfg : FullConfig) (req : ConfigProfile) (tr : Trace) :
    ∃ x y z, (runPostAcquisition env opts cfg req tr).2 =
      { tr with resolutionRequirements := some req, resolutionCalls := x,
                generateCalls := y, deployCalls := z } := by
  rw [runPostAcquisition]
  rcases hres : runResolution env req cfg.Capabilities env.plugins
      { tr with resolutionRequirements := some req } with ⟨res, tr3⟩
  obtain ⟨x, hx⟩ := runResolution_trace env req cfg.Capabilities env.plugins
    { tr with resolutionRequirements := some req }
  rw [hres] at hx
  dsimp only at hx
  cases res with
  | error e => exact ⟨x, tr.generateCalls, tr.deployCalls, by dsimp only; rw [hx]⟩
  | ok profs =>
    dsimp only
    rcases hgen : runGeneration env opts cfg profs tr3 with ⟨gres, tr4⟩
    obtain ⟨y, hy⟩ := runGeneration_trace env opts cfg profs tr3
    rw [hgen] at hy
    dsimp only at hy
    cases gres with
    | error e => exact ⟨x, y, tr.deployCalls, by dsimp only; rw [hy, hx]⟩
    | ok u =>
      dsimp only
      by_cases hdep : opts.Deploy = true
      · rw [if_pos hdep]
        obtain ⟨z, hz⟩ := runDeployment_trace env opts profs tr4
        exact ⟨x, y, z, by rw [hz, hy, hx]⟩
      · rw [if_neg hdep]
        exact ⟨x, y, tr.deployCalls, by dsimp only; rw [hy, hx]⟩

theorem runPostAcquisition_deployCalls_nodir (env : Env) (opts : Options)
    (cfg : FullConfig) (req : ConfigProfile) (tr : Trace)
    (hdep : opts.Deploy = true) (hdir : opts.SaveDeploymentFiles = "") :
    (runPostAcquisition env opts cfg req tr).2.deployCalls = tr.deployCalls := by
  rw [runPostAcquisition]
  rcases hres : runResolution env req cfg.Capabilities env.plugins
      { tr with resolutionRequirements := some req } with ⟨res, tr3⟩
  obtain ⟨x, hx⟩ := runResolution_trace env req cfg.Capabilities env.plugins
    { tr with resolutionRequirements := some req }
  rw [hres] at hx
  dsimp only at hx
  cases res with
  | error e => dsimp only; rw [hx]
  | ok profs =>
    dsimp only
    rcases hgen : runGeneration env opts cfg profs tr3 with ⟨gres, tr4⟩
    obtain ⟨y, hy⟩ := runGeneration_trace env opts cfg profs tr3
    rw [hgen] at hy
    dsimp only at hy
    cases gres with
    | error e => dsimp only; rw [hy, hx]
    | ok u =>
      dsimp only
      rw [if_pos hdep,
        (runDeployment_nodir env opts profs tr4 hdep hdir).1, hy, hx]

/-- C7: in the single-shot LLM path, whenever the parsed response map
carries a confidence field equal to low, the run aborts with the error
carrying the response's reasoning text, and no profile resolution, no file
generation and no deployment is attempted for any provider afterwards (nor
any plugin profile build from the response). -/
theorem singleShot_low_confidence_aborts (env : Env) (opts : Options)
    (cfg : FullConfig) (m : List (String × String))
    (hdisc : opts.DiscoverClusterConfig = true →
      env.discoverResult = Except.ok ())
    (hload : env.loadFullConfig (configPathOf opts) = .ok cfg)
    (hprof : cfg.Profile = none)
    (hcmd : env.plugins.all (fun pl => pl.profileConfiguredInCmd opts) = false)
    (hint : opts.LLMInteractive = false)
    (hprompt : opts.Prompt ≠ "")
    (hsel : env.selectPromptResult opts.Prompt = .ok m)
    (hlow : mapGet m "confidence" = "low") :
    (executeWorkflow env opts).1 =
      .error (lowConfidenceMsg (mapGet m "reasoning")) ∧
    (executeWorkflow env opts).2.resolutionCalls = [] ∧
    (executeWorkflow env opts).2.generateCalls = [] ∧
    (executeWorkflow env opts).2.deployCalls = [] ∧
    (executeWorkflow env opts).2.buildFromLLMCalls = [] := by
  have hacq : runAcquisition env opts cfg emptyTrace =
      (.error (lowConfidenceMsg (mapGet m "reasoning")),
       { emptyTrace with singleShotStarted := true }) := by
    rw [runAcquisition, hprof]
    dsimp only
    rw [if_neg (by simp [hcmd]), if_neg (by simp [hint]),
        if_pos (by simp [bne_iff_ne, hprompt]), hsel]
    dsimp only
    rw [if_pos (by simp [hlow])]
  have hd : (if opts.DiscoverClusterConfig then
      match env.discoverResult with
      | .error e => Except.error ("cluster discovery failed: " ++ e)
      | .ok _ => Except.ok ()
      else Except.ok ()) = Except.ok () := by
    cases hdc : opts.DiscoverClusterConfig with
    | false => rfl
    | true => rw [if_pos rfl, hdisc hdc]
  have hwf : executeWorkflow env opts =
      (.error (lowConfidenceMsg (mapGet m "reasoning")),
       { emptyTrace with singleShotStarted := true }) := by
    rw [executeWorkflow, hd]
    dsimp only
    rw [if_neg (by simp [hprompt]), hload]
    dsimp only
    rw [hacq]
  rw [hwf]
  exact ⟨rfl, rfl, rfl, rfl, rfl⟩

/-- A registered plugin whose requirements are never satisfied from flags
and whose collaborator calls succeed, used in concrete workflow runs. -/
def witnessPlugin : PluginModel :=
  ⟨"network-operator", fun _ => false, fun _ p => .ok p, fun _ p => .ok p,
   fun _ _ => .ok [], fun _ => .ok ()⟩

/-- A run whose single-shot LLM call answers with low confidence. -/
def lowConfEnv : Env :=
  ⟨[witnessPlugin], .ok (), fun _ => .ok ⟨none, sampleCaps⟩,
   fun _ => .ok [("confidence", "low"), ("reasoning", "too vague")],
   .error "unused", []⟩

/-- Options selecting the single-shot prompt path. -/
def lowConfOpts : Options :=
  ⟨false, "", "cfg.yaml", "prompt.txt", false, false, ""⟩

theorem singleShot_low_confidence_aborts_witness :
    (executeWorkflow lowConfEnv lowConfOpts).1 =
      .error (lowConfidenceMsg
        (mapGet [("confidence", "low"), ("reasoning", "too vague")]
          "reasoning")) ∧
    (executeWorkflow lowConfEnv lowConfOpts).2.resolutionCalls = [] ∧
    (executeWorkflow lowConfEnv lowConfOpts).2.generateCalls = [] ∧
    (executeWorkflow lowConfEnv lowConfOpts).2.deployCalls = [] ∧
    (executeWorkflow lowConfEnv lowConfOpts).2.buildFromLLMCalls = [] :=
  singleShot_low_confidence_aborts lowConfEnv lowConfOpts
    ⟨none, sampleCaps⟩ [("confidence", "low"), ("reasoning", "too vague")]
    (fun _ => rfl) rfl rfl rfl rfl (by decide) rfl rfl

/-- C8: whenever deployment is requested but no generated-files output
directory is configured, no provider's Deploy is ever invoked — the
workflow's deploy-call trace stays empty — and the deployment phase,
reached with any nonempty resolved-profile list, fails with the
configuration error before dispatching to any provider. -/
theorem deploy_requires_output_dir (env : Env) (opts : Options)
    (profs : List Profile) (tr : Trace)
    (hdep : opts.Deploy = true) (hdir : opts.SaveDeploymentFiles = "") :
    (executeWorkflow env opts).2.deployCalls = [] ∧
    (profs ≠ [] → runDeployment env opts profs tr =
      (.error
        "deployment failed: --deploy requires generated files directory; provide --save-deployment-files",
       tr)) := by
  refine ⟨?_, (runDeployment_nodir env opts profs tr hdep hdir).2⟩
  rw [executeWorkflow]
  cases hd : (if opts.DiscoverClusterConfig then
      match env.discoverResult with
      | .error e => Except.error ("cluster discovery failed: " ++ e)
      | .ok _ => Except.ok ()
      else Except.ok ()) with
  | error e => rfl
  | ok u =>
    dsimp only
    by_cases hearly :
        (!(env.plugins.all fun pl => pl.profileConfiguredInCmd opts) &&
          opts.Prompt == "" && !opts.LLMInteractive) = true
    · rw [if_pos hearly]
      rfl
    · rw [if_neg hearly]
      cases hlf : env.loadFullConfig (configPathOf opts) with
      | error e => rfl
      | ok cfg =>
        dsimp only
        rcases ha : runAcquisition env opts cfg emptyTrace with ⟨ares, tra⟩
        obtain ⟨a, b, c, d, hta⟩ := runAcquisition_trace env opts cfg emptyTrace
        rw [ha] at hta
        dsimp only at hta
        cases ares with
        | error e =>
          dsimp only
          rw [hta]
          rfl
        | ok req =>
          dsimp only
          rw [runPostAcquisition_deployCalls_nodir env opts cfg req tra hdep
            hdir, hta]
          rfl

/-- A run whose loaded configuration already carries a profile section. -/
def persistedEnv : Env :=
  ⟨[witnessPlugin], .ok (), fun _ => .ok ⟨some sampleReq, sampleCaps⟩,
   fun _ => .error "unused", .error "unused", []⟩

/-- Options with deploy requested and no generated-files directory. -/
def deployOpts : Options :=
  ⟨false, "", "cfg.yaml", "", false, true, ""⟩

theorem deploy_requires_output_dir_witness :
    (executeWorkflow persistedEnv deployOpts).2.deployCalls = [] ∧
    runDeployment persistedEnv deployOpts [declaredProfile] emptyTrace =
      (.error
        "deployment failed: --deploy requires generated files directory; provide --save-deployment-files",
       emptyTrace) := by
  have h := deploy_requires_output_dir persistedEnv deployOpts
    [declaredProfile] emptyTrace rfl rfl
  exact ⟨h.1, h.2 (by decide)⟩

/-- C9: when the loaded configuration already contains a profile section,
the orchestrator uses the persisted profile unchanged: no plugin profile
build from options or from an LLM response is called and no LLM session,
single-shot or interactive, is started, regardless of the flags; whenever
resolution is reached, the requirements it receives are exactly the
persisted profile. -/
theorem persisted_profile_short_circuit (env : Env) (opts : Options)
    (cfg : FullConfig) (p : ConfigProfile)
    (hload : env.loadFullConfig (configPathOf opts) = .ok cfg)
    (hp : cfg.Profile = some p) :
    (executeWorkflow env opts).2.buildFromOptionsCalls = [] ∧
    (executeWorkflow env opts).2.buildFromLLMCalls = [] ∧
    (executeWorkflow env opts).2.interactiveStarted = false ∧
    (executeWorkflow env opts).2.singleShotStarted = false ∧
    ((executeWorkflow env opts).2.resolutionRequirements = none ∨
     (executeWorkflow env opts).2.resolutionRequirements = some p) := by
  have hacq : runAcquisition env opts cfg emptyTrace = (.ok p, emptyTrace) := by
    rw [runAcquisition, hp]
  rw [executeWorkflow]
  cases hd : (if opts.DiscoverClusterConfig then
      match env.discoverResult with
      | .error e => Except.error ("cluster discovery failed: " ++ e)
      | .ok _ => Except.ok ()
      else Except.ok ()) with
  | error e => exact ⟨rfl, rfl, rfl, rfl, Or.inl rfl⟩
  | ok u =>
    dsimp only
    by_cases hearly :
        (!(env.plugins.all fun pl => pl.profileConfiguredInCmd opts) &&
          opts.Prompt == "" && !opts.LLMInteractive) = true
    · rw [if_pos hearly]
      exact ⟨rfl, rfl, rfl, rfl, Or.inl rfl⟩
    · rw [if_neg hearly, hload]
      dsimp only
      rw [hacq]
      dsimp only
      obtain ⟨x, y, z, hpost⟩ :=
        runPostAcquisition_trace env opts cfg p emptyTrace
      rw [hpost]
      exact ⟨rfl, rfl, rfl, rfl, Or.inr rfl⟩

/-- Options turning on every alternative requirements source at once. -/
def persistedOpts : Options :=
  ⟨false, "", "cfg.yaml", "prompt.txt", true, false, ""⟩

theorem persisted_profile_short_circuit_witness :
    (executeWorkflow persistedEnv persistedOpts).2.buildFromOptionsCalls = [] ∧
    (executeWorkflow persistedEnv persistedOpts).2.buildFromLLMCalls = [] ∧
    (executeWorkflow persistedEnv persistedOpts).2.interactiveStarted = false ∧
    (executeWorkflow persistedEnv persistedOpts).2.singleShotStarted = false ∧
    ((executeWorkflow persistedEnv persistedOpts).2.resolutionRequirements
        = none ∨
     (executeWorkflow persistedEnv persistedOpts).2.resolutionRequirements
        = some sampleReq) :=
  persisted_profile_short_circuit persistedEnv persistedOpts
    ⟨some sampleReq, sampleCaps⟩ sampleReq rfl rfl
